import Mathlib

/-!
Drawing a Cube: the mesh, the camera clamp and the projection matrices.

A shallow embedding of `source/main.cpp`.

* The mesh part (`vertices`, `indices`) is translated literally; the vertex
  coordinates are the integer literals `-1` and `1` of the source.
* `float` arithmetic is idealised as exact arithmetic in a field (`ℚ` for the
  executable definitions, `ℝ` where the real constant `π` is involved).
  Rounding, infinities and NaN are outside the model.
* The class `Transform3D` is not among the sources and is not modelled; the
  camera pitch read from it is a parameter of `nextPitch`.
* `glm::mat4` is a `Matrix (Fin 4) (Fin 4) α`; `glm::vec4` is `Fin 4 → α`; the
  product of a matrix and a vector is `Matrix.mulVec`.
-/

namespace DrawingACube

/-! ## glm vectors -/

/-- The type `glm::vec2`. -/
structure Vec2 (α : Type) where
  x : α
  y : α
deriving DecidableEq, Repr

/-- The type `glm::vec3`. -/
structure Vec3 (α : Type) where
  x : α
  y : α
  z : α
deriving DecidableEq, Repr

namespace Vec3

/-- Componentwise difference `a - b`. -/
def sub (a b : Vec3 ℤ) : Vec3 ℤ := ⟨a.x - b.x, a.y - b.y, a.z - b.z⟩

/-- Componentwise sum `a + b`. -/
def add (a b : Vec3 ℤ) : Vec3 ℤ := ⟨a.x + b.x, a.y + b.y, a.z + b.z⟩

/-- Cross product `a x b`. -/
def cross (a b : Vec3 ℤ) : Vec3 ℤ :=
  ⟨a.y * b.z - a.z * b.y, a.z * b.x - a.x * b.z, a.x * b.y - a.y * b.x⟩

/-- Dot product. -/
def dot (a b : Vec3 ℤ) : ℤ := a.x * b.x + a.y * b.y + a.z * b.z

end Vec3

/-! ## The cube mesh (main.cpp, lines 105-141) -/

/-- The eight `vertices.push_back(glm::vec3(..))` calls, in order. -/
def vertices : List (Vec3 ℤ) :=
  [⟨-1, -1, -1⟩, ⟨-1, -1, 1⟩, ⟨-1, 1, -1⟩, ⟨-1, 1, 1⟩,
   ⟨1, -1, -1⟩, ⟨1, -1, 1⟩, ⟨1, 1, -1⟩, ⟨1, 1, 1⟩]

/-- One pass through the body of the `for` loop: eighteen `push_back` calls. -/
def loopBody (indices : List ℕ) (i : ℕ) : List ℕ :=
  indices ++
    [i * 4 + 0, i * 4 + 1, i * 4 + 2, i * 4 + 3, i * 4 + 2, i * 4 + 1,
     i * 2 + 0, i * 2 + 1, i * 2 + 4, i * 2 + 5, i * 2 + 4, i * 2 + 1,
     i + 0, i + 2, i + 4, i + 6, i + 4, i + 2]

/-- The loop `for (int i = 0; i < 2; i++)` run on the empty vector. -/
def indices : List ℕ := (List.range 2).foldl loopBody []

/-- A triangle of the triangle list: three consecutive indices. -/
structure Tri where
  a : ℕ
  b : ℕ
  c : ℕ
deriving DecidableEq, Repr

/-- Cut an index list into consecutive triples (a triangle list); a trailing
group of fewer than three indices is dropped, as `GL_TRIANGLES` does. -/
def triangles : List ℕ → List Tri
  | a :: b :: c :: rest => ⟨a, b, c⟩ :: triangles rest
  | _ => []

/-- The position of vertex `i`; the origin when `i` is out of range. -/
def vertexAt (i : ℕ) : Vec3 ℤ := vertices.getD i ⟨0, 0, 0⟩

/-- The normal `(v1 - v0) x (v2 - v0)` of a triangle. -/
def normal (t : Tri) : Vec3 ℤ :=
  Vec3.cross (Vec3.sub (vertexAt t.b) (vertexAt t.a)) (Vec3.sub (vertexAt t.c) (vertexAt t.a))

/-- Three times the centroid of a triangle; the cube is centred at the origin,
so this is a vector from the cube centre towards the triangle. -/
def centroid3 (t : Tri) : Vec3 ℤ :=
  Vec3.add (Vec3.add (vertexAt t.a) (vertexAt t.b)) (vertexAt t.c)

/-- The normal points out of the cube. -/
def facesOutward (t : Tri) : Bool := decide (0 < Vec3.dot (normal t) (centroid3 t))

/-- The normal points into the cube. -/
def facesInward (t : Tri) : Bool := decide (Vec3.dot (normal t) (centroid3 t) < 0)

/-- The twelve triangles of the cube. -/
def cubeTriangles : List Tri := triangles indices

/-- The `k`-th emitted face: the triangles of the `k`-th group of six
consecutive indices. -/
def faceGroup (k : ℕ) : List Tri := triangles ((indices.drop (6 * k)).take 6)

/-- The distinct vertex indices used by a list of triangles. -/
def usedVertices (ts : List Tri) : List ℕ :=
  (ts.flatMap fun t => [t.a, t.b, t.c]).dedup

/-- The vertex indices two triangles have in common. -/
def sharedVertices (s t : Tri) : List ℕ :=
  ([s.a, s.b, s.c].filter fun i => i ∈ [t.a, t.b, t.c]).dedup

/-- A coordinate axis. -/
inductive Axis where
  | X
  | Y
  | Z
deriving DecidableEq, Repr

/-- The coordinate of a point along an axis. -/
def coord (ax : Axis) (v : Vec3 ℤ) : ℤ :=
  match ax with
  | .X => v.x
  | .Y => v.y
  | .Z => v.z

/-- All vertices used by the triangles lie on the plane `axis = value`. -/
def onPlane (ax : Axis) (value : ℤ) (ts : List Tri) : Bool :=
  (usedVertices ts).all fun i => decide (coord ax (vertexAt i) = value)

/-- The face planes of the cube on which a group of triangles lies. -/
def planesOf (ts : List Tri) : List (Axis × ℤ) :=
  ([(Axis.X, -1), (Axis.X, 1), (Axis.Y, -1), (Axis.Y, 1), (Axis.Z, -1), (Axis.Z, 1)] :
    List (Axis × ℤ)).filter fun p => onPlane p.1 p.2 ts

/-- A triangle is non-degenerate: its normal is not the zero vector. -/
def nondegenerate (t : Tri) : Bool := decide (normal t ≠ ⟨0, 0, 0⟩)

/-- The vertex indices shared by the two triangles of a face group. -/
def sharedOfGroup (ts : List Tri) : List ℕ :=
  match ts with
  | [s, t] => sharedVertices s t
  | _ => []

/-- The number of coordinates in which two points differ. -/
def differingCoords (u v : Vec3 ℤ) : ℕ :=
  ([Axis.X, Axis.Y, Axis.Z].filter fun ax => decide (coord ax u ≠ coord ax v)).length

/-- The listed vertex indices are the two ends of a diagonal of a cube face:
there are two of them and their positions differ in exactly two coordinates. -/
def isFaceDiagonal (l : List ℕ) : Bool :=
  match l with
  | [i, j] => decide (differingCoords (vertexAt i) (vertexAt j) = 2)
  | _ => false

/-! ## The pitch clamp of the main loop (main.cpp, lines 225-242) -/

/-- The constant `float halfpi = 3.1416 / 2.f;`. -/
def halfpi : ℚ := 3.1416 / 2

/-- The vector `mousePosition - (viewportDimensions / 2.0f)`. -/
def mouseMovement (mousePosition viewportDimensions : Vec2 ℚ) : Vec2 ℚ :=
  ⟨mousePosition.x - viewportDimensions.x / 2, mousePosition.y - viewportDimensions.y / 2⟩

/-- The two-branch clamp `if (pitch < -halfpi) .. else if (pitch > halfpi) ..`. -/
def clampPitch (pitch : ℚ) : ℚ :=
  if pitch < -halfpi then -halfpi
  else if pitch > halfpi then halfpi
  else pitch

/-- The pitch handed to `SetRotation` by one iteration of the main loop.
`rotationX` is `cameraPosition.Rotation().x` at the start of the iteration. -/
def nextPitch (rotationX : ℚ) (mousePosition viewportDimensions : Vec2 ℚ) : ℚ :=
  clampPitch (rotationX - (mouseMovement mousePosition viewportDimensions).y * 0.001)

/-- The yaw handed to `SetRotation` by one iteration of the main loop. -/
def nextYaw (rotationY : ℚ) (mousePosition viewportDimensions : Vec2 ℚ) : ℚ :=
  rotationY + (mouseMovement mousePosition viewportDimensions).x * 0.001

/-! ## The projection matrices of the main loop (main.cpp, lines 285-321) -/

/-- The constructor `glm::mat4(x0, y0, z0, w0, x1, ..)`: sixteen scalars read
column by column, so the first four arguments are the first column. -/
def mat4 {α : Type} (x0 y0 z0 w0 x1 y1 z1 w1 x2 y2 z2 w2 x3 y3 z3 w3 : α) :
    Matrix (Fin 4) (Fin 4) α :=
  !![x0, x1, x2, x3; y0, y1, y2, y3; z0, z1, z2, z3; w0, w1, w2, w3]

/-- The constructor `glm::vec4(x, y, z, w)`. -/
def vec4 {α : Type} (x y z w : α) : Fin 4 → α := ![x, y, z, w]

/-- The constant `float near = 1;`. -/
def near : ℚ := 1

/-- The constant `float far = 10;`. -/
def far : ℚ := 10

/-- The constant `float width = 1;`. -/
def width : ℚ := 1

/-- The value `float height = viewportDimensions.y / viewportDimensions.x;`. -/
def height (viewportDimensions : Vec2 ℚ) : ℚ := viewportDimensions.y / viewportDimensions.x

/-- The matrix `orthographicProjection`, as a function of `height`. -/
def orthographicProjection (height : ℚ) : Matrix (Fin 4) (Fin 4) ℚ :=
  mat4
    (2 / width) 0 0 0
    0 (2 / height) 0 0
    0 0 (2 / (near - far)) 0
    0 0 ((far + near) / (near - far)) 1

/-- The matrix `perspectiveProjection`, as a function of `height`. -/
def perspectiveProjection (height : ℚ) : Matrix (Fin 4) (Fin 4) ℚ :=
  mat4
    (2 / width) 0 0 0
    0 (2 / height) 0 0
    0 0 (-(far + near) / (far - near)) (-1)
    0 0 ((2 * near * far) / (near - far)) 1

/-- Clip coordinates of the view-space point `(x, y, z, 1)` under a projection. -/
def clip (projection : Matrix (Fin 4) (Fin 4) ℚ) (x y z : ℚ) : Fin 4 → ℚ :=
  projection.mulVec (vec4 x y z 1)

/-- Normalized-device `z`: clip `z` divided by clip `w`. -/
def ndcZ (c : Fin 4 → ℚ) : ℚ := c 2 / c 3

/-! ## Theorems: the cube mesh -/

/-- C1: the mesh has exactly 8 vertices and exactly 36 indices, which are 12
triangles of 3 indices each; the loop runs its body for i = 0 and i = 1 and
every index it produces is below 8, the number of vertices. -/
theorem mesh_counts_and_index_range :
    vertices.length = 8 ∧
    indices.length = 36 ∧
    cubeTriangles.length = 12 ∧
    indices.length = 3 * cubeTriangles.length ∧
    indices = loopBody (loopBody [] 0) 1 ∧
    (∀ i ∈ loopBody [] 0, i < 8) ∧
    (∀ i ∈ loopBody [] 1, i < 8) ∧
    (∀ i ∈ indices, i < vertices.length) := by
  decide

/-- C6: with the normal of a triangle taken as (v1 - v0) x (v2 - v0), both
triangles of the 1st, 3rd and 5th emitted faces (x = -1, z = -1, y = +1) face
outward, both triangles of the 2nd, 4th and 6th emitted faces (y = -1, x = +1,
z = +1) face inward, the orientation alternates from face to face in emission
order, and exactly 6 of the 12 triangles face outward and 6 face inward. -/
theorem winding_alternates_per_face :
    planesOf (faceGroup 0) = [(Axis.X, -1)] ∧
    planesOf (faceGroup 2) = [(Axis.Z, -1)] ∧
    planesOf (faceGroup 4) = [(Axis.Y, 1)] ∧
    planesOf (faceGroup 1) = [(Axis.Y, -1)] ∧
    planesOf (faceGroup 3) = [(Axis.X, 1)] ∧
    planesOf (faceGroup 5) = [(Axis.Z, 1)] ∧
    (∀ k ∈ [0, 2, 4], (faceGroup k).length = 2 ∧
      ∀ t ∈ faceGroup k, facesOutward t = true ∧ facesInward t = false) ∧
    (∀ k ∈ [1, 3, 5], (faceGroup k).length = 2 ∧
      ∀ t ∈ faceGroup k, facesInward t = true ∧ facesOutward t = false) ∧
    cubeTriangles.map facesOutward =
      [true, true, false, false, true, true, false, false, true, true, false, false] ∧
    cubeTriangles.length = 12 ∧
    cubeTriangles.countP facesOutward = 6 ∧
    cubeTriangles.countP facesInward = 6 := by
  decide

/-- C7: each of the six consecutive groups of six indices is two non-degenerate
triangles that together use exactly four distinct vertices, all four on exactly
one face plane of the cube; the two triangles share exactly two vertices, the
ends of a face diagonal; the groups are, in emission order, the faces x = -1,
y = -1, z = -1, x = +1, y = +1, z = +1, so the groups commented left and right
share x, those commented top and bottom share y, those commented front and back
share z, and each of the six faces is covered exactly once. -/
theorem groups_are_the_six_faces :
    (∀ k ∈ List.range 6,
      (faceGroup k).length = 2 ∧
      (∀ t ∈ faceGroup k, nondegenerate t = true) ∧
      (usedVertices (faceGroup k)).length = 4 ∧
      (planesOf (faceGroup k)).length = 1 ∧
      (sharedOfGroup (faceGroup k)).length = 2 ∧
      isFaceDiagonal (sharedOfGroup (faceGroup k)) = true) ∧
    (List.range 6).flatMap faceGroup = cubeTriangles ∧
    (List.range 6).flatMap (fun k => planesOf (faceGroup k)) =
      [(Axis.X, -1), (Axis.Y, -1), (Axis.Z, -1), (Axis.X, 1), (Axis.Y, 1), (Axis.Z, 1)] ∧
    ((List.range 6).flatMap (fun k => planesOf (faceGroup k))).Nodup := by
  decide

/-! ## Theorems: the projection matrices -/

/-- The four clip coordinates under the orthographic matrix. -/
theorem clip_orthographic (h x y z : ℚ) :
    clip (orthographicProjection h) x y z = ![2 * x, 2 / h * y, (-2 * z - 11) / 9, 1] := by
  funext i
  fin_cases i <;>
    simp [clip, orthographicProjection, mat4, vec4, Matrix.mulVec, Matrix.dotProduct,
      Fin.sum_univ_succ, near, far, width]
  all_goals ring

/-- The four clip coordinates under the perspective matrix. -/
theorem clip_perspective (h x y z : ℚ) :
    clip (perspectiveProjection h) x y z = ![2 * x, 2 / h * y, (-11 * z - 20) / 9, 1 - z] := by
  funext i
  fin_cases i <;>
    simp [clip, perspectiveProjection, mat4, vec4, Matrix.mulVec, Matrix.dotProduct,
      Fin.sum_univ_succ, near, far, width]
  all_goals ring

/-- Clip z under the perspective matrix. -/
theorem clip_perspective_z (h x y z : ℚ) :
    clip (perspectiveProjection h) x y z 2 = (-11 * z - 20) / 9 := by
  rw [clip_perspective]; rfl

/-- Clip w under the perspective matrix. -/
theorem clip_perspective_w (h x y z : ℚ) :
    clip (perspectiveProjection h) x y z 3 = 1 - z := by
  rw [clip_perspective]; rfl

/-- C8: for near = 1, far = 10, width = 1 and every non-zero height, the
orthographic matrix sends (x, y, z, 1) to a point with w = 1; z = -near goes to
-1 and z = -far to +1; x = +-width/2 goes to +-1 and y = +-height/2 to +-1; a
point lies in the view box exactly when its image lies in the cube from
(-1, -1, -1) to (1, 1, 1), and every point of that cube is the image of a point
of the view box. -/
theorem orthographic_maps_view_box_onto_cube (h : ℚ) (hh : h ≠ 0) (x y z : ℚ) :
    clip (orthographicProjection h) x y z 3 = 1 ∧
    clip (orthographicProjection h) x y (-near) 2 = -1 ∧
    clip (orthographicProjection h) x y (-far) 2 = 1 ∧
    clip (orthographicProjection h) (width / 2) y z 0 = 1 ∧
    clip (orthographicProjection h) (-(width / 2)) y z 0 = -1 ∧
    clip (orthographicProjection h) x (h / 2) z 1 = 1 ∧
    clip (orthographicProjection h) x (-(h / 2)) z 1 = -1 ∧
    ((|x| ≤ width / 2 ∧ |y| ≤ |h| / 2 ∧ -far ≤ z ∧ z ≤ -near) ↔
      (|clip (orthographicProjection h) x y z 0| ≤ 1 ∧
       |clip (orthographicProjection h) x y z 1| ≤ 1 ∧
       |clip (orthographicProjection h) x y z 2| ≤ 1)) ∧
    (∀ a b c : ℚ, |a| ≤ 1 → |b| ≤ 1 → |c| ≤ 1 →
      ∃ u v w : ℚ, (|u| ≤ width / 2 ∧ |v| ≤ |h| / 2 ∧ -far ≤ w ∧ w ≤ -near) ∧
        clip (orthographicProjection h) u v w = vec4 a b c 1) := by
  have habs : (0 : ℚ) < |h| := abs_pos.mpr hh
  have hy : ∀ v : ℚ, |2 / h * v| ≤ 1 ↔ |v| ≤ |h| / 2 := by
    intro v
    rw [abs_mul, abs_div, abs_two, div_mul_eq_mul_div, div_le_iff₀ habs, le_div_iff₀ two_pos]
    constructor <;> intro H <;> linarith
  simp only [clip_orthographic, near, far, width]
  refine ⟨by simp, by simp; norm_num, by simp; norm_num, by simp, by simp, ?_, ?_, ?_, ?_⟩
  · simp; field_simp
  · simp; field_simp
  · simp only [Matrix.cons_val_zero, Matrix.cons_val_one, Matrix.head_cons, Matrix.cons_val_two,
      Matrix.tail_cons, hy]
    rw [abs_le, abs_le, abs_le, abs_le]
    constructor
    · rintro ⟨⟨h1, h2⟩, h3, h4, h5⟩
      refine ⟨⟨by linarith, by linarith⟩, h3, by linarith, by linarith⟩
    · rintro ⟨⟨h1, h2⟩, h3, h4, h5⟩
      refine ⟨⟨by linarith, by linarith⟩, h3, by linarith, by linarith⟩
  · intro a b c ha hb hc
    refine ⟨a / 2, b * h / 2, (-9 * c - 11) / 2, ⟨?_, ?_, ?_, ?_⟩, ?_⟩
    · rw [abs_div, abs_two]; linarith
    · rw [abs_div, abs_two, abs_mul]
      have : |b| * |h| ≤ 1 * |h| := mul_le_mul_of_nonneg_right hb habs.le
      linarith
    · rw [abs_le] at hc; linarith [hc.1, hc.2]
    · rw [abs_le] at hc; linarith [hc.1, hc.2]
    · funext i
      fin_cases i
      · simp [vec4]; ring
      · simp [vec4]; field_simp
      · simp [vec4]; ring
      · simp [vec4]

/-- Witness for C8 at the initial 800 x 600 viewport, height 3/4. -/
theorem orthographic_maps_view_box_onto_cube_witness :
    (3 / 4 : ℚ) ≠ 0 ∧
    clip (orthographicProjection (3 / 4)) 0 0 (-5) 3 = 1 ∧
    clip (orthographicProjection (3 / 4)) 0 0 (-near) 2 = -1 ∧
    clip (orthographicProjection (3 / 4)) 0 0 (-far) 2 = 1 ∧
    clip (orthographicProjection (3 / 4)) (width / 2) 0 (-5) 0 = 1 ∧
    clip (orthographicProjection (3 / 4)) 0 (3 / 4 / 2) (-5) 1 = 1 :=
  have H := orthographic_maps_view_box_onto_cube (3 / 4) (by norm_num) 0 0 (-5)
  ⟨by norm_num, H.1, H.2.1, H.2.2.1, H.2.2.2.1, H.2.2.2.2.2.1⟩

/-- C9: under the perspective matrix (near = 1, far = 10) the view-space point
(x, y, -d, 1) gets clip w = d + 1 and clip z = (11 d - 20) / 9, so for d other
than -1 its normalized-device z is (11 d - 20) / (9 (d + 1)); the near plane
d = 1 lands at -1/2 and the far plane d = 10 lands at 10/11.  This holds for
every height. -/
theorem perspective_clip_w_is_depth_plus_one (h x y d : ℚ) :
    clip (perspectiveProjection h) x y (-d) 3 = d + 1 ∧
    clip (perspectiveProjection h) x y (-d) 2 = (11 * d - 20) / 9 ∧
    (d ≠ -1 → ndcZ (clip (perspectiveProjection h) x y (-d)) = (11 * d - 20) / (9 * (d + 1))) ∧
    ndcZ (clip (perspectiveProjection h) x y (-1)) = -1 / 2 ∧
    ndcZ (clip (perspectiveProjection h) x y (-10)) = 10 / 11 := by
  simp only [ndcZ, clip_perspective_z, clip_perspective_w]
  refine ⟨by ring, by ring, ?_, by norm_num, by norm_num⟩
  intro _
  rw [div_div]
  congr 1 <;> ring

/-- Witness for C9 at height 3/4 and depth d = 5, the distance of the cube. -/
theorem perspective_clip_w_is_depth_plus_one_witness :
    (5 : ℚ) ≠ -1 ∧
    clip (perspectiveProjection (3 / 4)) 0 0 (-5) 3 = 5 + 1 ∧
    clip (perspectiveProjection (3 / 4)) 0 0 (-5) 2 = (11 * 5 - 20) / 9 ∧
    ndcZ (clip (perspectiveProjection (3 / 4)) 0 0 (-5)) = (11 * 5 - 20) / (9 * (5 + 1)) :=
  have H := perspective_clip_w_is_depth_plus_one (3 / 4) 0 0 5
  ⟨by norm_num, H.1, H.2.1, H.2.2.1 (by norm_num)⟩

/-- C2, evaluated at the initial 800 x 600 viewport: the point (0, 0, -near, 1)
has normalized-device z equal to -1/2, not -1, and the point (0, 0, -far, 1)
has normalized-device z equal to 10/11, not 1; the depths that do land on -1
and 1 are 11/20 and 29/2 instead of near and far. -/
theorem perspective_near_far_miss_unit_range :
    height ⟨800, 600⟩ ≠ 0 ∧
    ndcZ (clip (perspectiveProjection (height ⟨800, 600⟩)) 0 0 (-near)) = -1 / 2 ∧
    ndcZ (clip (perspectiveProjection (height ⟨800, 600⟩)) 0 0 (-near)) ≠ -1 ∧
    ndcZ (clip (perspectiveProjection (height ⟨800, 600⟩)) 0 0 (-far)) = 10 / 11 ∧
    ndcZ (clip (perspectiveProjection (height ⟨800, 600⟩)) 0 0 (-far)) ≠ 1 ∧
    ndcZ (clip (perspectiveProjection (height ⟨800, 600⟩)) 0 0 (-(11 / 20))) = -1 ∧
    ndcZ (clip (perspectiveProjection (height ⟨800, 600⟩)) 0 0 (-(29 / 2))) = 1 := by
  simp only [ndcZ, clip_perspective_z, clip_perspective_w, near, far, height]
  refine ⟨?_, ?_, ?_, ?_, ?_, ?_, ?_⟩ <;> norm_num

/-! ## Theorems: the pitch clamp -/

/-- The clamp keeps every pitch between `-halfpi` and `halfpi`. -/
theorem clampPitch_bounds (pitch : ℚ) :
    -halfpi ≤ clampPitch pitch ∧ clampPitch pitch ≤ halfpi := by
  have hpos : (0 : ℚ) ≤ halfpi := by norm_num [halfpi]
  unfold clampPitch
  split_ifs with h1 h2
  · exact ⟨le_refl _, by linarith⟩
  · exact ⟨by linarith, le_refl _⟩
  · exact ⟨not_lt.mp h1, not_lt.mp h2⟩

/-- The clamp bound of the source exceeds the real `π / 2`, by less than
`4 / 1000000`. -/
theorem halfpi_gt_real_half_pi :
    Real.pi / 2 < (halfpi : ℝ) ∧ (halfpi : ℝ) < Real.pi / 2 + 4 / 1000000 := by
  have h1 := Real.pi_gt_d6
  have h2 := Real.pi_lt_d6
  have h3 : (halfpi : ℝ) = 15708 / 10000 := by norm_num [halfpi]
  rw [h3]
  constructor <;> norm_num at h1 h2 ⊢ <;> linarith

/-- C3, counterexample: with the camera at pitch 3/2, an 800 x 600 viewport and
the mouse at the top edge (400, 0), the pitch passed to SetRotation is 1.5708,
which is greater than the real `π / 2`; so the pitch does not lie in
`[-π/2, π/2]`. -/
theorem pitch_can_exceed_real_half_pi :
    nextPitch (3 / 2) ⟨400, 0⟩ ⟨800, 600⟩ = 15708 / 10000 ∧
    ¬ (-(Real.pi / 2) ≤ ((nextPitch (3 / 2) ⟨400, 0⟩ ⟨800, 600⟩ : ℚ) : ℝ) ∧
        ((nextPitch (3 / 2) ⟨400, 0⟩ ⟨800, 600⟩ : ℚ) : ℝ) ≤ Real.pi / 2) := by
  have hv : nextPitch (3 / 2) ⟨400, 0⟩ ⟨800, 600⟩ = 15708 / 10000 := by
    norm_num [nextPitch, mouseMovement, clampPitch, halfpi]
  refine ⟨hv, ?_⟩
  rw [hv]
  rintro ⟨-, h⟩
  have h2 := Real.pi_lt_d6
  norm_num at h h2
  linarith

/-- C3, amended: for every current camera pitch, mouse position and viewport,
the pitch passed to SetRotation lies in the closed interval from -1.5708 to
1.5708, where 1.5708 = 3.1416 / 2 is the constant `halfpi` of the source; hence
it lies within 4 / 1000000 of the interval `[-π/2, π/2]`. -/
theorem pitch_within_source_halfpi (rotationX : ℚ) (mousePosition viewportDimensions : Vec2 ℚ) :
    halfpi = 15708 / 10000 ∧
    -halfpi ≤ nextPitch rotationX mousePosition viewportDimensions ∧
    nextPitch rotationX mousePosition viewportDimensions ≤ halfpi ∧
    -(Real.pi / 2 + 4 / 1000000) <
      ((nextPitch rotationX mousePosition viewportDimensions : ℚ) : ℝ) ∧
    ((nextPitch rotationX mousePosition viewportDimensions : ℚ) : ℝ) <
      Real.pi / 2 + 4 / 1000000 := by
  have hb := clampPitch_bounds
    (rotationX - (mouseMovement mousePosition viewportDimensions).y * 0.001)
  have hr := halfpi_gt_real_half_pi
  have h1 : (-(halfpi : ℝ)) ≤ ((nextPitch rotationX mousePosition viewportDimensions : ℚ) : ℝ) := by
    have := hb.1
    unfold nextPitch
    exact_mod_cast this
  have h2 : ((nextPitch rotationX mousePosition viewportDimensions : ℚ) : ℝ) ≤ (halfpi : ℝ) := by
    have := hb.2
    unfold nextPitch
    exact_mod_cast this
  refine ⟨by norm_num [halfpi], hb.1, hb.2, ?_, ?_⟩ <;> linarith [hr.2]

end DrawingACube
